import Mathlib

/-!
Verification of the interactive EER-diagram subsystem of `SQL_Editor.py`.

The embedding translates the diagram code (class `TableNode`, and the
closures `_show_interactive_eer`, `apply_layout`, `_update_edges`,
`set_zoom`, `wheel_zoom`, `_apply_scale_at`) into Lean definitions.
Python floats are modelled as exact rationals (`ℚ`); the radial layout,
which calls `math.cos` / `math.sin` / `math.pi`, is stated over the reals
(`ℝ`) by keeping the layout definitions polymorphic over a linear ordered
field and abstract in the trigonometric functions, and instantiating them
with `Real.cos`, `Real.sin`, `Real.pi` in the theorems.
-/

namespace SQLEditor

/-- Class constant `TableNode.BOX_WIDTH = 220`. -/
def boxWidth : ℚ := 220

/-- Class constant `TableNode.HEADER_H = 28`. -/
def headerH : ℚ := 28

/-- Class constant `TableNode.ROW_H = 20`. -/
def rowH : ℚ := 20

/-- Class constant `TableNode.PAD = 6`. -/
def padC : ℚ := 6

/-- Class constant `TableNode.BOTTOM_PAD = 8`. -/
def bottomPad : ℚ := 8

/-- A table node of the diagram: `TableNode.__init__` stores the table
name, the column list and the top-left position `(x, y)`.  Canvas item
ids and bindings carry no model state and are omitted. -/
structure TableNode where
  name : String
  cols : List String
  x : ℚ
  y : ℚ
  deriving DecidableEq

/-- Derived width: `self.width = TableNode.BOX_WIDTH` (not independently
settable). -/
def TableNode.width (_nd : TableNode) : ℚ := boxWidth

/-- Derived height:
`self.height = HEADER_H + len(self.cols) * ROW_H + PAD + BOTTOM_PAD`. -/
def TableNode.height (nd : TableNode) : ℚ :=
  headerH + nd.cols.length * rowH + padC + bottomPad

/-- `TableNode.move(self, dx, dy)`: `self.x += dx; self.y += dy` (the
`canvas.move` call only mirrors the position on screen).  No bounds
checking of any kind. -/
def TableNode.move (nd : TableNode) (dx dy : ℚ) : TableNode :=
  { nd with x := nd.x + dx, y := nd.y + dy }

/-- A foreign-key record as produced by `_get_foreign_keys`:
`{"table": t, "col": c, "ref_table": rt, "ref_col": rc}`. -/
structure FK where
  table : String
  col : String
  refTable : String
  refCol : String
  deriving DecidableEq

/-- The four edge coordinates `x1, y1, x2, y2` passed to
`canvas.create_line` / `canvas.coords`. -/
structure EdgeCoords where
  x1 : ℚ
  y1 : ℚ
  x2 : ℚ
  y2 : ℚ
  deriving DecidableEq

/-- Edge endpoints as computed at the initial draw inside
`_show_interactive_eer`:
`x1 = na.x + na.width; y1 = na.y + HEADER_H + ROW_H / 2;
 x2 = nb.x;            y2 = nb.y + HEADER_H + ROW_H / 2`. -/
def edgeCoordsInitial (na nb : TableNode) : EdgeCoords :=
  { x1 := na.x + na.width
    y1 := na.y + headerH + rowH / 2
    x2 := nb.x
    y2 := nb.y + headerH + rowH / 2 }

/-- Edge endpoints as recomputed on every call of `_update_edges` from the
referenced nodes' current fields (the edge record stores only canvas item
ids and the two table names, no coordinates). -/
def edgeCoordsUpdate (na nb : TableNode) : EdgeCoords :=
  { x1 := na.x + na.width
    y1 := na.y + headerH + rowH / 2
    x2 := nb.x
    y2 := nb.y + headerH + rowH / 2 }

/-- Label placement: `mx, my = (x1 + x2)/2, (y1 + y2)/2` and the text item
is created at `(mx, my - 12)` (both at the initial draw and in
`_update_edges`). -/
def edgeLabelPoint (c : EdgeCoords) : ℚ × ℚ :=
  ((c.x1 + c.x2) / 2, (c.y1 + c.y2) / 2 - 12)

/-- Label text: `f"{t}.{col} → {rt}.{ref_col}"`. -/
def edgeLabel (fk : FK) : String :=
  fk.table ++ "." ++ fk.col ++ " → " ++ fk.refTable ++ "." ++ fk.refCol

/-- The column count of the grid placement in `apply_layout`:
`cols = max(1, int((count ** 0.5) + 0.5))`.  `int(sqrt(n) + 0.5)` is the
exact integer `⌊√n + 1/2⌋`, computed here as `(⌊√(4n)⌋ + 1) / 2` in
natural-number arithmetic (`⌊√n + 1/2⌋ = ⌊(2√n + 1)/2⌋ =
⌊(⌊√(4n)⌋ + 1)/2⌋` since `⌊2√n⌋ = ⌊√(4n)⌋`). -/
def gridCols (n : ℕ) : ℕ := max 1 ((Nat.sqrt (4 * n) + 1) / 2)

/-- The column count of the inline placement at build time in
`_show_interactive_eer`: `cols_grid = max(1, int((len(tables) ** 0.5) + 0.5))`
(textually the same expression as in `apply_layout`, kept as a separate
definition because it is a separate code site). -/
def buildCols (n : ℕ) : ℕ := max 1 ((Nat.sqrt (4 * n) + 1) / 2)

/-- Initial node position at build time (no saved `gv_positions`):
`row, col = index // cols_grid, index % cols_grid;
 x, y = 80 + col * 320, 80 + row * 220`. -/
def initialGridPos (n i : ℕ) : ℚ × ℚ :=
  (80 + (i % buildCols n : ℕ) * 320, 80 + (i / buildCols n : ℕ) * 220)

variable {K : Type} [LinearOrderedField K]

/-- Grid target of node `i` of `n` in `apply_layout("grid")`:
`row, col = i // cols, i % cols; target = (80 + col * 320, 80 + row * 220)`. -/
def gridTarget (n i : ℕ) : K × K :=
  ((80 : K) + (i % gridCols n : ℕ) * 320, (80 : K) + (i / gridCols n : ℕ) * 220)

/-- The repositioning loop shared by both layout branches: a counter `i`
starts at `0` and, for each node in insertion order,
`dx, dy = target_x - nd.x, target_y - nd.y; nd.move(dx, dy); i += 1`. -/
def moveToTargets (target : ℕ → K × K) : ℕ → List (K × K) → List (K × K)
  | _, [] => []
  | i, p :: ps =>
      (p.1 + ((target i).1 - p.1), p.2 + ((target i).2 - p.2)) ::
        moveToTargets target (i + 1) ps

/-- Radius of the radial layout:
`radius = max(200, min(800, len(nodes) * 40))`. -/
def radialRadius (n : ℕ) : K := max 200 (min 800 ((n : K) * 40))

/-- Radial target of node `i` of `n` in `apply_layout("radial")`:
`ang = (2 * math.pi * i) / total;
 target_x = center_x + math.cos(ang) * radius;
 target_y = center_y + math.sin(ang) * radius`.
The trigonometric functions and `math.pi` enter as parameters `cosf`,
`sinf`, `pik` so that the definition stays executable; the theorems
instantiate them with `Real.cos`, `Real.sin`, `Real.pi`. -/
def radialTarget (cosf sinf : K → K) (pik : K) (center : K × K) (n i : ℕ) :
    K × K :=
  (center.1 + cosf (2 * pik * (i : K) / (n : K)) * radialRadius n,
   center.2 + sinf (2 * pik * (i : K) / (n : K)) * radialRadius n)

/-- `apply_layout(mode)` restricted to the node positions it rewrites:
`count = len(nodes); if count == 0: return`; the `"grid"` branch and the
`"radial"` branch each move every node to its target; any other mode
matches no branch and leaves every position unchanged (the remaining
statements only refresh edges and the scroll region). -/
def applyLayout (cosf sinf : K → K) (pik : K) (center : K × K)
    (mode : String) (ps : List (K × K)) : List (K × K) :=
  if ps.length = 0 then ps
  else if mode = "grid" then moveToTargets (gridTarget ps.length) 0 ps
  else if mode = "radial" then
    moveToTargets (radialTarget cosf sinf pik center ps.length) 0 ps
  else ps

/-- Node construction loop of `_show_interactive_eer` with
`gv_positions = None`: every table gets the inline grid position of the
running `index`, which increments once per table. -/
def buildNodesAux (n : ℕ) : ℕ → List (String × List String) → List TableNode
  | _, [] => []
  | i, (t, cs) :: rest =>
      { name := t, cols := cs,
        x := (initialGridPos n i).1, y := (initialGridPos n i).2 } ::
        buildNodesAux n (i + 1) rest

/-- `tables = list(schema.keys())`; one `TableNode` per table, in schema
order, positioned by the inline grid placement. -/
def buildNodes (schema : List (String × List String)) : List TableNode :=
  buildNodesAux schema.length 0 schema

/-- Edge construction loop of `_show_interactive_eer`:
`if t not in nodes or rt not in nodes: continue` — a foreign key is kept
exactly when both endpoint tables name built nodes, in discovery order. -/
def buildEdges (names : List String) : List FK → List FK
  | [] => []
  | fk :: rest =>
      if names.contains fk.table && names.contains fk.refTable then
        fk :: buildEdges names rest
      else buildEdges names rest

/-- `set_zoom(val)` restricted to the scale it computes: rejects values
that fail `float()` conversion (not modelled: the slider always delivers a
number), returns unchanged when `val <= 0` or when
`abs(val - current_scale["s"]) < 1e-6`, and otherwise adopts `val`
verbatim — there is no clamping in this handler. -/
def setZoomScale (s val : ℚ) : ℚ :=
  if val ≤ 0 then s
  else if |val - s| < 1 / 1000000 then s
  else val

/-- `wheel_zoom` scale computation for a normalized wheel delta:
`if delta == 0: return; step = 1.1 if delta > 0 else (1/1.1);
 new_scale = max(0.2, min(3.0, current_scale["s"] * step))`. -/
def wheelNewScale (s : ℚ) (delta : ℤ) : ℚ :=
  if delta = 0 then s
  else
    (if 0 < delta then max (1 / 5) (min 3 (s * (11 / 10)))
     else max (1 / 5) (min 3 (s * (10 / 11))))

/-- The Tk canvas primitive `canvas.scale(item, xOrigin, yOrigin, xScale,
yScale)` used by `_apply_scale_at(cx, cy, factor)`: per the Tk canvas
documentation, every coordinate is transformed affinely about the origin
point, `x' = xOrigin + xScale * (x - xOrigin)` (and likewise for `y`). -/
def scalePoint (c p : ℚ × ℚ) (f : ℚ) : ℚ × ℚ :=
  (c.1 + (p.1 - c.1) * f, c.2 + (p.2 - c.2) * f)

/-- `wheel_zoom` acting on one canvas point: the new scale is computed,
`factor = new_scale / current_scale["s"]`, and `_apply_scale_at` rescales
the point about the cursor's canvas coordinates. -/
def wheelZoomPoint (s : ℚ) (delta : ℤ) (cursor p : ℚ × ℚ) : ℚ × ℚ :=
  scalePoint cursor p (wheelNewScale s delta / s)

/-- Modelled from the spec: the column count the spec's words prescribe
for the grid layout, `ceil(sqrt(node_count))`, written for natural
numbers.  Kept only for comparison with `gridCols`, which is translated
from the source. -/
def ceilSqrtSpec (n : ℕ) : ℕ :=
  if Nat.sqrt n * Nat.sqrt n = n then Nat.sqrt n else Nat.sqrt n + 1

/-- Moving a point by the delta to a target lands exactly on the target. -/
lemma movePoint_eq (q t : K × K) :
    (q.1 + (t.1 - q.1), q.2 + (t.2 - q.2)) = t := by
  ext
  · dsimp
    ring
  · dsimp
    ring

/-- The repositioning loop lands every node exactly on its target:
`nd.move(target - nd.pos)` ends at `target`. -/
lemma moveToTargets_eq (target : ℕ → K × K) :
    ∀ (i : ℕ) (ps : List (K × K)),
      moveToTargets target i ps =
        (List.range ps.length).map (fun j => target (i + j)) := by
  intro i ps
  induction ps generalizing i with
  | nil => simp [moveToTargets]
  | cons p ps ih =>
      simp only [moveToTargets, List.length_cons, List.range_succ_eq_map,
        List.map_cons, List.map_map]
      congr 1
      · rw [Nat.add_zero]
        exact movePoint_eq p (target i)
      · rw [ih (i + 1)]
        apply List.map_congr_left
        intro a _
        simp only [Function.comp_apply]
        congr 1
        omega

/-- The `"grid"` branch of `apply_layout` sends the position list to the
grid targets, in order. -/
lemma applyLayout_grid_eq (cosf sinf : K → K) (pik : K) (center : K × K)
    (ps : List (K × K)) :
    applyLayout cosf sinf pik center "grid" ps =
      (List.range ps.length).map (gridTarget ps.length) := by
  unfold applyLayout
  by_cases h : ps.length = 0
  · rw [List.length_eq_zero] at h
    subst h
    simp
  · simp only [h, if_false, if_pos rfl]
    rw [moveToTargets_eq]
    apply List.map_congr_left
    intro a _
    simp

/-- The `"radial"` branch of `apply_layout` sends the position list to the
radial targets, in order. -/
lemma applyLayout_radial_eq (cosf sinf : K → K) (pik : K) (center : K × K)
    (ps : List (K × K)) :
    applyLayout cosf sinf pik center "radial" ps =
      (List.range ps.length).map
        (radialTarget cosf sinf pik center ps.length) := by
  unfold applyLayout
  by_cases h : ps.length = 0
  · rw [List.length_eq_zero] at h
    subst h
    simp
  · have hg : ("radial" : String) = "grid" ↔ False := by simp
    simp only [h, if_false, hg, if_pos rfl]
    rw [moveToTargets_eq]
    apply List.map_congr_left
    intro a _
    simp

/-- Node construction produces one node per schema entry, whose positions
are the inline grid positions of the running index. -/
lemma buildNodesAux_spec (n : ℕ) :
    ∀ (i : ℕ) (l : List (String × List String)),
      (buildNodesAux n i l).length = l.length ∧
      (buildNodesAux n i l).map TableNode.name = l.map Prod.fst ∧
      (buildNodesAux n i l).map (fun nd => (nd.x, nd.y)) =
        (List.range l.length).map (fun j => initialGridPos n (i + j)) := by
  intro i l
  induction l generalizing i with
  | nil => simp [buildNodesAux]
  | cons p l ih =>
      obtain ⟨h1, h2, h3⟩ := ih (i + 1)
      refine ⟨by simp [buildNodesAux, h1], by simp [buildNodesAux, h2], ?_⟩
      simp only [buildNodesAux, List.map_cons, List.length_cons,
        List.range_succ_eq_map, List.map_map, h3]
      congr 1
      apply List.map_congr_left
      intro a _
      simp only [Function.comp_apply]
      congr 1
      omega

/-- The edge loop keeps exactly the foreign keys whose two endpoints both
name built nodes. -/
lemma buildEdges_eq_filter (names : List String) (fks : List FK) :
    buildEdges names fks =
      fks.filter
        (fun fk => names.contains fk.table && names.contains fk.refTable) := by
  induction fks with
  | nil => rfl
  | cons fk rest ih =>
      rw [List.filter_cons]
      unfold buildEdges
      rw [ih]

/-- C1: building the diagram creates exactly one node per table of the
snapshot, in input order, and exactly one edge per foreign key whose
from-table and to-table both name built nodes; a foreign key referencing
an absent table (e.g. `"archived_logs"`) is silently dropped — no error,
no edge, and the node count is unaffected. -/
theorem claim1_build_nodes_and_edges
    (schema : List (String × List String)) (fks : List FK) :
    (buildNodes schema).length = schema.length ∧
    (buildNodes schema).map TableNode.name = schema.map Prod.fst ∧
    buildEdges (schema.map Prod.fst) fks =
      fks.filter (fun fk =>
        (schema.map Prod.fst).contains fk.table &&
        (schema.map Prod.fst).contains fk.refTable) ∧
    buildEdges ["users", "orders"]
      [⟨"orders", "user_id", "archived_logs", "id"⟩] = [] ∧
    (buildNodes [("users", ["id", "name"]), ("orders", ["id", "user_id"])]).length
      = 2 := by
  obtain ⟨h1, h2, _⟩ := buildNodesAux_spec schema.length 0 schema
  refine ⟨h1, h2, buildEdges_eq_filter _ _, by decide, ?_⟩
  obtain ⟨h1, _, _⟩ :=
    buildNodesAux_spec 2 0 [("users", ["id", "name"]), ("orders", ["id", "user_id"])]
  exact h1

/-- C4: wheel zoom is anchored at the pointer: the canvas point under the
cursor is a fixed point of the affine rescale that `wheel_zoom` applies
(`_apply_scale_at` about the cursor's canvas coordinates, with the 1.1
per-notch step factor folded into `wheelNewScale`). -/
theorem claim4_zoom_anchor (s : ℚ) (delta : ℤ) (cursor : ℚ × ℚ) :
    wheelZoomPoint s delta cursor cursor = cursor := by
  unfold wheelZoomPoint scalePoint
  ext
  · dsimp
    ring
  · dsimp
    ring

/-- C6: applying the grid layout twice in a row with no intervening
mutation yields node positions identical to applying it once — the second
application moves every node by delta zero. -/
theorem claim6_grid_idempotent (cosf sinf : ℚ → ℚ) (pik : ℚ)
    (center : ℚ × ℚ) (ps : List (ℚ × ℚ)) :
    applyLayout cosf sinf pik center "grid"
        (applyLayout cosf sinf pik center "grid" ps) =
      applyLayout cosf sinf pik center "grid" ps := by
  rw [applyLayout_grid_eq, applyLayout_grid_eq]
  simp

/-- C7: `TableNode.move` translates the position by exactly the given
delta with no bounds checking (any delta, including one that leaves the
canvas, is applied verbatim), so moving by `(dx, dy)` and then by
`(-dx, -dy)` restores the position exactly. -/
theorem claim7_move_roundtrip (nd : TableNode) (dx dy : ℚ) :
    (nd.move dx dy).move (-dx) (-dy) = nd ∧
    (nd.move dx dy).x = nd.x + dx ∧ (nd.move dx dy).y = nd.y + dy := by
  cases nd
  refine ⟨?_, rfl, rfl⟩
  simp only [TableNode.move, TableNode.mk.injEq, true_and]
  refine ⟨by ring, by ring⟩

/-- C10: with no saved positions, the inline placement at build time and
the `apply_layout("grid")` placement agree — applying the grid layout to
a freshly built diagram moves nothing, because both code paths use the
column count `max(1, int(sqrt(n) + 0.5))` and the position formula
`(80 + col * 320, 80 + row * 220)` over the same node order. -/
theorem claim10_build_grid_equivalence (cosf sinf : ℚ → ℚ) (pik : ℚ)
    (center : ℚ × ℚ) (schema : List (String × List String)) :
    applyLayout cosf sinf pik center "grid"
        ((buildNodes schema).map (fun nd => (nd.x, nd.y))) =
      (buildNodes schema).map (fun nd => (nd.x, nd.y)) ∧
    ∀ n i : ℕ, initialGridPos n i = gridTarget n i := by
  constructor
  · obtain ⟨h1, _, h3⟩ := buildNodesAux_spec schema.length 0 schema
    unfold buildNodes
    rw [applyLayout_grid_eq, List.length_map, h1, h3]
    apply List.map_congr_left
    intro a _
    simp [initialGridPos, gridTarget, buildCols, gridCols]
  · intro n i
    simp [initialGridPos, gridTarget, buildCols, gridCols]

/-- C8: the radial layout places the `n` nodes, in insertion order, at
angles `2π·i/n` around a circle centered on the current viewport center
with radius `clamp(n * 40, 200, 800)` (written `max 200 (min 800 (n * 40))`
as in the source); the result is a function of the node order, the node
count and the viewport center, hence deterministic. -/
theorem claim8_radial_layout (center : ℝ × ℝ) (ps : List (ℝ × ℝ)) :
    applyLayout Real.cos Real.sin Real.pi center "radial" ps =
      (List.range ps.length).map (fun (i : ℕ) =>
        (center.1 + Real.cos (2 * Real.pi * (i : ℝ) / (ps.length : ℝ)) *
            max 200 (min 800 ((ps.length : ℝ) * 40)),
         center.2 + Real.sin (2 * Real.pi * (i : ℝ) / (ps.length : ℝ)) *
            max 200 (min 800 ((ps.length : ℝ) * 40)))) := by
  rw [applyLayout_radial_eq]
  apply List.map_congr_left
  intro a _
  simp [radialTarget, radialRadius]

/-- Concrete value of the integer square root used by the column count:
`Nat.sqrt 8 = 2`. -/
lemma natSqrt_eight : Nat.sqrt 8 = 2 := by
  have h1 : 2 ≤ Nat.sqrt 8 := by
    rw [Nat.le_sqrt]
    norm_num
  have h2 : Nat.sqrt 8 < 3 := by
    rw [Nat.sqrt_lt]
    norm_num
  omega

/-- Concrete value: `Nat.sqrt 2 = 1`. -/
lemma natSqrt_two : Nat.sqrt 2 = 1 := by
  have h1 : 1 ≤ Nat.sqrt 2 := by
    rw [Nat.le_sqrt]
    norm_num
  have h2 : Nat.sqrt 2 < 2 := by
    rw [Nat.sqrt_lt]
    norm_num
  omega

/-- The column count of a 2-node grid is 1 in the source. -/
lemma gridCols_two : gridCols 2 = 1 := by
  simp [gridCols, natSqrt_eight]

/-- Grid positions of a 2-node layout: one column, rows 0 and 1. -/
lemma gridLayout_two (cosf sinf : ℚ → ℚ) (pik : ℚ) (center : ℚ × ℚ) :
    applyLayout cosf sinf pik center "grid" [(0, 0), (0, 0)] =
      [(80, 80), (80, 300)] := by
  rw [applyLayout_grid_eq]
  simp [List.range_succ, gridTarget, gridCols_two]
  norm_num

/-- C2 counterexample: the code computes the column count as
`max(1, int(sqrt(n) + 0.5))`, which for the 2-table schema
`users, orders` is 1, not `ceil(sqrt(2)) = 2`; the grid layout therefore
stacks the two nodes in a single column — `users` at `(80, 80)` and
`orders` at `(80, 300)` — instead of placing `orders` at row 0, column 1
(which would be `(400, 80)`). -/
theorem claim2_counterexample :
    gridCols 2 = 1 ∧ ceilSqrtSpec 2 = 2 ∧
    applyLayout (K := ℚ) (fun _ => 0) (fun _ => 0) 0 (0, 0) "grid"
        [(0, 0), (0, 0)] = [(80, 80), (80, 300)] ∧
    ((80 : ℚ), (300 : ℚ)) ≠ ((400 : ℚ), (80 : ℚ)) := by
  refine ⟨gridCols_two, ?_, gridLayout_two _ _ _ _, by decide⟩
  simp [ceilSqrtSpec, natSqrt_two]

/-- C2 (amended): the grid layout arranges all nodes in row-major order
into a grid with `max(1, ⌊√n + 1/2⌋)` columns (round-half-up, not
`ceil(√n)`) at horizontal pitch 320 and vertical pitch 220 from origin
`(80, 80)`; in particular, for the 2-table schema `users` then `orders`
the two nodes land in a single column — `users` at `(80, 80)` (row 0) and
`orders` at `(80, 300)` (row 1) — and the foreign key
`orders.user_id → users.id` yields exactly one edge. -/
theorem claim2_grid_layout_amended (cosf sinf : ℚ → ℚ) (pik : ℚ)
    (center : ℚ × ℚ) (ps : List (ℚ × ℚ)) :
    applyLayout cosf sinf pik center "grid" ps =
      (List.range ps.length).map (fun i =>
        ((80 : ℚ) + (i % gridCols ps.length : ℕ) * 320,
         (80 : ℚ) + (i / gridCols ps.length : ℕ) * 220)) ∧
    applyLayout cosf sinf pik center "grid" [(0, 0), (0, 0)] =
      [(80, 80), (80, 300)] ∧
    buildEdges ["users", "orders"] [⟨"orders", "user_id", "users", "id"⟩] =
      [⟨"orders", "user_id", "users", "id"⟩] := by
  exact ⟨applyLayout_grid_eq cosf sinf pik center ps,
    gridLayout_two cosf sinf pik center, by decide⟩

/-- C3 counterexample: the slider handler `set_zoom` accepts the
requested scale `0.1` verbatim even though it lies below the configured
minimum `0.2` — it performs no clamping. -/
theorem claim3_counterexample :
    setZoomScale 1 (1 / 10) = 1 / 10 ∧ ¬((1 / 5 : ℚ) ≤ 1 / 10) := by
  constructor
  · rw [setZoomScale, if_neg (by norm_num), if_neg (by norm_num [abs_lt])]
  · norm_num

/-- C3 (amended): only the wheel handler clamps: for every nonzero wheel
delta the resulting scale lies in `[0.2, 3.0]`; the slider handler
`set_zoom` adopts any positive requested value verbatim (provided it
differs from the current scale by at least `1e-6`) with no clamping —
range enforcement for the slider is left to the slider widget, whose own
range is `[0.4, 2.4]`. -/
theorem claim3_zoom_clamp_amended :
    (∀ (s : ℚ) (delta : ℤ), delta ≠ 0 →
      (1 / 5 : ℚ) ≤ wheelNewScale s delta ∧ wheelNewScale s delta ≤ 3) ∧
    (∀ s val : ℚ, 0 < val → ¬(|val - s| < 1 / 1000000) →
      setZoomScale s val = val) := by
  constructor
  · intro s delta hd
    rw [wheelNewScale, if_neg hd]
    by_cases hp : 0 < delta
    · rw [if_pos hp]
      refine ⟨le_max_left _ _, max_le (by norm_num) (min_le_left _ _)⟩
    · rw [if_neg hp]
      refine ⟨le_max_left _ _, max_le (by norm_num) (min_le_left _ _)⟩
  · intro s val hv hne
    rw [setZoomScale, if_neg (by linarith), if_neg hne]

/-- Witness for the amended C3 at concrete inputs. -/
theorem claim3_zoom_clamp_amended_witness :
    ((1 / 5 : ℚ) ≤ wheelNewScale 1 1 ∧ wheelNewScale 1 1 ≤ 3) ∧
    setZoomScale 1 (1 / 2) = 1 / 2 :=
  ⟨claim3_zoom_clamp_amended.1 1 1 (by decide),
   claim3_zoom_clamp_amended.2 1 (1 / 2) (by norm_num)
     (by norm_num [abs_lt])⟩

/-- C5 counterexample: edge endpoints are not vertically centered on the
node header: for a source node at `y = 0` the endpoint ordinate is
`HEADER_H + ROW_H / 2 = 38`, while the header center is
`HEADER_H / 2 = 14`; and the label is created at `(mx, my - 12)`, 12
pixels above the segment midpoint, not at the midpoint itself. -/
theorem claim5_counterexample :
    (edgeCoordsUpdate ⟨"users", ["id", "name"], 0, 0⟩
        ⟨"orders", ["id", "user_id"], 500, 0⟩).y1 = 38 ∧
    (0 : ℚ) + headerH / 2 = 14 ∧ (38 : ℚ) ≠ 14 ∧
    (edgeLabelPoint (edgeCoordsUpdate ⟨"users", ["id", "name"], 0, 0⟩
        ⟨"orders", ["id", "user_id"], 500, 0⟩)).2 = 26 ∧
    ((edgeCoordsUpdate ⟨"users", ["id", "name"], 0, 0⟩
        ⟨"orders", ["id", "user_id"], 500, 0⟩).y1 +
      (edgeCoordsUpdate ⟨"users", ["id", "name"], 0, 0⟩
        ⟨"orders", ["id", "user_id"], 500, 0⟩).y2) / 2 = 38 ∧
    (26 : ℚ) ≠ 38 := by
  refine ⟨?_, ?_, by decide, ?_, ?_, by decide⟩ <;>
    simp [edgeCoordsUpdate, edgeLabelPoint, headerH, rowH, boxWidth,
      TableNode.width] <;> norm_num

/-- C5 (amended): at the initial draw and at every `_update_edges` call
the edge endpoints are recomputed, with identical formulas, from the two
referenced nodes' current positions and sizes: start at the source node's
right edge, end at the target node's left edge, both at ordinate
`node.y + HEADER_H + ROW_H / 2` (the vertical center of the first column
row, 38 px below the node top — not the header center); the label text is
`"{from_table}.{from_column} → {to_table}.{to_column}"` and is placed 12
px above the segment midpoint; edges store no independent position state,
so after a node moves the recomputed endpoints follow the new position. -/
theorem claim5_edge_geometry_amended (na nb : TableNode) (dx dy : ℚ) :
    edgeCoordsUpdate na nb = edgeCoordsInitial na nb ∧
    edgeCoordsUpdate na nb =
      { x1 := na.x + na.width, y1 := na.y + headerH + rowH / 2,
        x2 := nb.x, y2 := nb.y + headerH + rowH / 2 } ∧
    edgeCoordsUpdate (na.move dx dy) nb =
      { x1 := na.x + dx + na.width, y1 := na.y + dy + headerH + rowH / 2,
        x2 := nb.x, y2 := nb.y + headerH + rowH / 2 } ∧
    edgeLabelPoint (edgeCoordsUpdate na nb) =
      ((na.x + na.width + nb.x) / 2,
       (na.y + headerH + rowH / 2 + (nb.y + headerH + rowH / 2)) / 2 - 12) ∧
    edgeLabel ⟨"orders", "user_id", "users", "id"⟩ =
      "orders.user_id → users.id" := by
  refine ⟨rfl, rfl, ?_, rfl, rfl⟩
  simp [edgeCoordsUpdate, TableNode.move, TableNode.width]

/-- C9 counterexample: requesting the layout kind `"hierarchical"` (an
option the layout combobox offers) matches neither branch of
`apply_layout`; no error of any kind is raised and every node position is
left unchanged — the call silently does nothing. -/
theorem claim9_counterexample :
    applyLayout (K := ℚ) (fun _ => 0) (fun _ => 0) 0 (0, 0) "hierarchical"
      [(1, 2)] = [(1, 2)] := by
  decide

/-- C9 (amended): a layout kind other than `"grid"` and `"radial"`
(including `"hierarchical"`) silently leaves every node position
unchanged; `apply_layout` has no failure branch and raises no
`InvalidArgument`-class error. -/
theorem claim9_unknown_layout_amended (cosf sinf : ℚ → ℚ) (pik : ℚ)
    (center : ℚ × ℚ) (mode : String) (ps : List (ℚ × ℚ))
    (hg : mode ≠ "grid") (hr : mode ≠ "radial") :
    applyLayout cosf sinf pik center mode ps = ps := by
  unfold applyLayout
  by_cases h : ps.length = 0
  · rw [if_pos h]
  · rw [if_neg h, if_neg hg, if_neg hr]

/-- Witness for the amended C9 at a concrete unknown mode. -/
theorem claim9_unknown_layout_amended_witness :
    applyLayout (K := ℚ) (fun _ => 1) (fun _ => 1) 3 (5, 5) "hierarchical"
      [(3, 4), (6, 8)] = [(3, 4), (6, 8)] :=
  claim9_unknown_layout_amended (fun _ => 1) (fun _ => 1) 3 (5, 5)
    "hierarchical" [(3, 4), (6, 8)] (by decide) (by decide)

end SQLEditor
